import Mathlib

/-!
Shallow embedding of `src/iridm_dm_app.py` (IRIDM Disaster-Management
Streamlit prototype), covering the station repository, the distance/ETA
estimator, the nearest-station resolver and the incident log.

Modelling conventions:
* Python floats are modelled as exact rationals (`ℚ`); the geopy
  `geodesic(..).kilometers` call is an external library and is modelled as an
  abstract distance function passed in as a parameter (`Geo`).
* Python exceptions are modelled by the inductive `PyError` together with
  `Except`.  The constructors `IndexError`, `ParserError` and `OSError`
  stand for the built-in / pandas exception classes the code can actually
  raise; `EmptyInputError`, `InvalidStatusError` and `SourceMalformedError`
  are modelled from the spec: the source defines no exception classes of its
  own, and these constructors exist only so that the spec's error-model
  claims can be stated and compared against the code's behaviour.
* `st.session_state` is a per-session dictionary; the only key the core
  uses is `"log"`, so the session is modelled as `Option (List LogEntry)`
  (`none` = key absent).  The persisted CSV file is modelled as
  `Option (List CsvRow)` (`none` = file absent).
* `datetime.now().isoformat(timespec="seconds")` is an external clock call
  returning a second-precision ISO-8601 string; `log_event` therefore takes
  the string the clock returned at call time as an argument.
-/

/-- Python exceptions relevant to the embedded code.  Only `IndexError`
(pandas `.iloc[0]` on an empty frame), `ParserError` (pandas `read_csv` on
malformed input) and `OSError` (failed file write) can be raised by the
source; the remaining constructors are modelled from the spec's error
design (no such classes exist in `iridm_dm_app.py`). -/
inductive PyError where
  | IndexError
  | ParserError
  | OSError
  | EmptyInputError
  | InvalidStatusError
  | SourceMalformedError
  | PersistenceWriteError
  deriving DecidableEq, Repr

/-- A fire station record: the fields of `DEFAULT_FIRE_STATIONS` /
`fire_stations.csv` (`name,latitude,longitude,phone`). -/
structure Station where
  name : String
  latitude : ℚ
  longitude : ℚ
  phone : String
  deriving DecidableEq, Repr

/-- `DEFAULT_FIRE_STATIONS` from the source (lines 26-39). -/
def DEFAULT_FIRE_STATIONS : List Station :=
  [ { name := "Kengeri Fire Station", latitude := 129133/10000,
      longitude := 774488/10000, phone := "+918022851049" },
    { name := "Ram Nagar Fire Station", latitude := 129225/10000,
      longitude := 775051/10000, phone := "+918022917567" } ]

/-- The external override CSV (`fire_stations.csv`): absent, present but
unparsable, or present and parsed into rows. -/
inductive StationsCsv where
  | absent
  | malformed
  | parsed (rows : List Station)

/-- `load_fire_station_df` (source lines 80-84): if `fire_stations.csv`
exists, `pd.read_csv` parses it (raising a pandas parse error when it is
malformed — the code does not catch it and defines no error type of its
own); otherwise the built-in defaults are returned.  There is no
non-emptiness check on the parsed result. -/
def load_fire_station_df : StationsCsv → Except PyError (List Station)
  | .absent => .ok DEFAULT_FIRE_STATIONS
  | .malformed => .error .ParserError
  | .parsed rows => .ok rows

/-- The external geodesic distance (geopy's `geodesic(p1, p2).kilometers`),
a nonnegative-real-valued function of two coordinates; kept abstract since
geopy is an external collaborator. -/
abbrev Geo := ℚ × ℚ → ℚ × ℚ → ℚ

/-- Python's `round` on ties uses banker's rounding (round half to even);
on exact rationals this is the faithful model of `round(x, 2)`'s integer
step. -/
def roundHalfEven (x : ℚ) : ℤ :=
  let f : ℤ := ⌊x⌋
  let r : ℚ := x - f
  if r < 1/2 then f
  else if 1/2 < r then f + 1
  else if f % 2 = 0 then f else f + 1

/-- Python's `round(x, 2)`: round to 2 decimal places, half to even. -/
def pyRound2 (x : ℚ) : ℚ := (roundHalfEven (x * 100) : ℚ) / 100

/-- `haversine_km` (source lines 87-89): the geodesic distance in km
rounded to 2 decimal places. -/
def haversine_km (geo : Geo) (p1 p2 : ℚ × ℚ) : ℚ := pyRound2 (geo p1 p2)

/-- A row of the frame built inside `nearest_fire_station`: a station
together with its computed `distance_km` column. -/
structure StationRow extends Station where
  distance_km : ℚ
  deriving DecidableEq, Repr

/-- The `distance_km` value `nearest_fire_station` computes for station
`s` (source line 95). -/
def distOf (geo : Geo) (lat lon : ℚ) (s : Station) : ℚ :=
  haversine_km geo (lat, lon) (s.latitude, s.longitude)

/-- The frame row `nearest_fire_station` builds for station `s`. -/
def rowOf (geo : Geo) (lat lon : ℚ) (s : Station) : StationRow :=
  { s with distance_km := distOf geo lat lon s }

/-- Insert `a` into a list sorted by key `f`, before the first element
with a key `≥ f a` (the stable insertion step). -/
def orderedInsertKey (f : α → ℚ) (a : α) : List α → List α
  | [] => [a]
  | b :: l => if f a ≤ f b then a :: b :: l else b :: orderedInsertKey f a l

/-- The model of `stations_df.sort_values("distance_km")` (source line
97): a stable insertion sort by key.  pandas' default sort kind is numpy's
introsort, which runs exactly this stable insertion sort on arrays below
its small-array cutoff (fewer than 17 elements) but is documented as NOT
stable in general.  The model is therefore faithful only for frames of at
most 16 rows: the tie-break theorem, which depends on stability, carries
an explicit `length ≤ 16` bound, while the minimum-distance and
empty-input theorems hold under any correct sort and need no bound. -/
def insertionSortKey (f : α → ℚ) : List α → List α
  | [] => []
  | a :: l => orderedInsertKey f a (insertionSortKey f l)

/-- `nearest_fire_station` (source lines 92-98): copy the frame, add a
`distance_km` column via `haversine_km`, sort by it and take `iloc[0]`.
On an empty frame `iloc[0]` raises `IndexError` (pandas: single positional
indexer out of bounds). -/
def nearest_fire_station (geo : Geo) (lat lon : ℚ)
    (stations : List Station) : Except PyError StationRow :=
  match insertionSortKey (fun r => r.distance_km)
      (stations.map (rowOf geo lat lon)) with
  | [] => .error .IndexError
  | r :: _ => .ok r

/-- The first element of `l` attaining the minimal key `f`: `none` iff `l`
is empty.  Characterises the head of the stable sort. -/
def firstMinBy (f : α → ℚ) : List α → Option α
  | [] => none
  | a :: l =>
    match firstMinBy f l with
    | none => some a
    | some b => if f a ≤ f b then some a else some b

/-- A Python value as it appears in a pandas cell after `read_csv` /
`to_dict("records")`: a string, a missing value (`NaN`), or a value
produced by `read_csv`'s column type inference — an `int64`, a `float64`
(finite values as exact rationals, infinities separately), or a bool. -/
inductive PyVal where
  | str (s : String)
  | nan
  | int (n : ℤ)
  | float (q : ℚ)
  | bool (b : Bool)
  | inf (neg : Bool)
  deriving DecidableEq, Repr

/-- One entry of the in-session incident log, the dict built by
`log_event` (source lines 103-108).  Entries created in-session hold
`.str` values in every field; entries re-loaded from the CSV may hold
`.nan`, `.int`, `.float`, `.bool` or `.inf` values because of `read_csv`
column type inference. -/
structure LogEntry where
  timestamp : PyVal
  status : PyVal
  location : PyVal
  notes : PyVal
  deriving DecidableEq, Repr

/-- One row of the persisted `incident_log.csv`, cell contents as written
by `to_csv` (pandas quoting makes the cell content itself round-trip
verbatim, so cells are modelled unescaped). -/
structure CsvRow where
  timestamp : String
  status : String
  location : String
  notes : String
  deriving DecidableEq, Repr

/-- The fractional decimal digits of `r / d` (bounded depth; used only on
the write-back path for float cells, which no entry of this app ever
produces). -/
def fracDigits (fuel : Nat) (r d : Nat) : List Char :=
  match fuel with
  | 0 => []
  | fuel + 1 =>
    if r = 0 then []
    else Char.ofNat (48 + r * 10 / d) :: fracDigits fuel (r * 10 % d) d

/-- Decimal rendering of a float value, as `to_csv` writes it (exact over
ℚ where Python prints the shortest float repr; this branch is reachable
only for a log re-loaded from a CSV with float-shaped cells and is not
exercised by any theorem). -/
def floatRepr (q : ℚ) : String :=
  let sign := if q.num < 0 then "-" else ""
  let n := q.num.natAbs
  let ds := fracDigits 17 (n % q.den) q.den
  sign ++ toString (n / q.den) ++ "." ++
    (if ds.isEmpty then "0" else String.mk ds)

/-- How `to_csv` renders one cell: strings verbatim, `NaN` as the empty
cell, integers in decimal, booleans as `True`/`False`, floats in
decimal. -/
def writeCell : PyVal → String
  | .str s => s
  | .nan => ""
  | .int n => toString n
  | .float q => floatRepr q
  | .bool b => if b then "True" else "False"
  | .inf neg => if neg then "-inf" else "inf"

/-- The CSV row `to_csv` writes for an in-memory log entry. -/
def serializeEntry (e : LogEntry) : CsvRow :=
  { timestamp := writeCell e.timestamp, status := writeCell e.status,
    location := writeCell e.location, notes := writeCell e.notes }

/-- The application state the incident log touches: the `"log"` key of
`st.session_state` (absent ↔ `none`) and the persisted `incident_log.csv`
(absent ↔ `none`). -/
structure AppState where
  sessionLog : Option (List LogEntry)
  logFile : Option (List CsvRow)
  deriving DecidableEq, Repr

/-- A fresh session with no persisted file: `session_state` has no `"log"`
key and `incident_log.csv` does not exist. -/
def freshState : AppState := { sessionLog := none, logFile := none }

/-- The session's log sequence as the UI reads it
(`st.session_state.get("log", [])`, source line 340). -/
def curLog (st : AppState) : List LogEntry := st.sessionLog.getD []

/-- `log_event` (source lines 101-113).  `ts` is the string
`datetime.now().isoformat(timespec="seconds")` returned by the external
clock at call time; `writeOk` says whether the `to_csv` file write
succeeds.  The body: build the entry dict, initialise
`st.session_state.log` to `[]` if the key is absent, append the entry
in memory, then rewrite the whole CSV from the full in-memory list.  The
write is not wrapped in any `try`/`except`, so a failing write propagates
as an uncaught `OSError` after the in-memory append has already happened;
a successful write replaces the file with the serialization of the entire
post-append sequence.  No validation of `status` (or any other field) is
performed. -/
def log_event (ts status location notes : String) (writeOk : Bool)
    (st : AppState) : AppState × Except PyError Unit :=
  let entry : LogEntry :=
    { timestamp := .str ts, status := .str status,
      location := .str location, notes := .str notes }
  let log1 := curLog st ++ [entry]
  if writeOk then
    ({ sessionLog := some log1, logFile := some (log1.map serializeEntry) },
     .ok ())
  else
    ({ sessionLog := some log1, logFile := st.logFile }, .error .OSError)

/-- The entry `log_event ts status location notes` constructs. -/
def entryOf (ts status location notes : String) : LogEntry :=
  { timestamp := .str ts, status := .str status,
    location := .str location, notes := .str notes }

/-- `int(x)` in Python: truncation toward zero. -/
def pyInt (x : ℚ) : ℤ := if 0 ≤ x then ⌊x⌋ else ⌈x⌉

/-- `AVG_FIRE_TRUCK_SPEED_KMPH` (source line 71). -/
def AVG_FIRE_TRUCK_SPEED_KMPH : ℚ := 40

/-- The ETA computation of `main` (source line 289):
`int((distance_km / speed) * 60)`, with the speed a configuration value
defaulting to `AVG_FIRE_TRUCK_SPEED_KMPH`. -/
def eta_minutes (distance_km speed_kmph : ℚ) : ℤ :=
  pyInt (distance_km / speed_kmph * 60)

/-- The concrete distance function used in witnesses: the squared
Euclidean distance on coordinates, a simple computable stand-in for the
external geodesic. -/
def geoW : Geo := fun p q =>
  (p.1 - q.1) * (p.1 - q.1) + (p.2 - q.2) * (p.2 - q.2)

/-! ### Helper lemmas: the head of the stable sort is the first minimiser -/

theorem head_orderedInsertKey (f : α → ℚ) (a : α) (l : List α) :
    (orderedInsertKey f a l).head? =
      some (match l.head? with
            | none => a
            | some b => if f a ≤ f b then a else b) := by
  cases l with
  | nil => rfl
  | cons b l =>
    simp only [orderedInsertKey, List.head?_cons]
    split <;> simp_all

theorem head_insertionSortKey (f : α → ℚ) (l : List α) :
    (insertionSortKey f l).head? = firstMinBy f l := by
  induction l with
  | nil => rfl
  | cons a l ih =>
    simp only [insertionSortKey, firstMinBy]
    rw [head_orderedInsertKey, ih]
    cases firstMinBy f l with
    | none => rfl
    | some b => by_cases h : f a ≤ f b <;> simp [h]

theorem firstMinBy_none (f : α → ℚ) {l : List α}
    (h : firstMinBy f l = none) : l = [] := by
  cases l with
  | nil => rfl
  | cons a l =>
    exfalso
    simp only [firstMinBy] at h
    cases hm : firstMinBy f l with
    | none => simp only [hm] at h; exact Option.noConfusion h
    | some c =>
      simp only [hm] at h
      by_cases hac : f a ≤ f c <;> simp [hac] at h

theorem firstMinBy_le (f : α → ℚ) :
    ∀ (l : List α) (b : α), firstMinBy f l = some b → ∀ a ∈ l, f b ≤ f a := by
  intro l
  induction l with
  | nil => intro b h; simp [firstMinBy] at h
  | cons a l ih =>
    intro b h x hx
    simp only [firstMinBy] at h
    cases hm : firstMinBy f l with
    | none =>
      simp only [hm] at h
      obtain rfl : a = b := by simpa using h
      have hl := firstMinBy_none f hm
      subst hl
      simp only [List.mem_singleton] at hx
      subst hx; exact le_refl _
    | some c =>
      simp only [hm] at h
      have hcl := ih c hm
      rcases List.mem_cons.mp hx with rfl | hxl
      · by_cases hac : f x ≤ f c
        · rw [if_pos hac] at h
          obtain rfl : x = b := by simpa using h
          exact le_refl _
        · rw [if_neg hac] at h
          obtain rfl : c = b := by simpa using h
          exact le_of_lt (lt_of_not_le hac)
      · by_cases hac : f a ≤ f c
        · rw [if_pos hac] at h
          obtain rfl : a = b := by simpa using h
          exact le_trans hac (hcl x hxl)
        · rw [if_neg hac] at h
          obtain rfl : c = b := by simpa using h
          exact hcl x hxl

theorem firstMinBy_split (f : α → ℚ) :
    ∀ (l : List α) (b : α), firstMinBy f l = some b →
      ∃ l₁ l₂, l = l₁ ++ b :: l₂ ∧ ∀ a ∈ l₁, f b < f a := by
  intro l
  induction l with
  | nil => intro b h; simp [firstMinBy] at h
  | cons a l ih =>
    intro b h
    simp only [firstMinBy] at h
    cases hm : firstMinBy f l with
    | none =>
      simp only [hm] at h
      obtain rfl : a = b := by simpa using h
      exact ⟨[], l, rfl, by simp⟩
    | some c =>
      simp only [hm] at h
      by_cases hac : f a ≤ f c
      · rw [if_pos hac] at h
        obtain rfl : a = b := by simpa using h
        exact ⟨[], l, rfl, by simp⟩
      · rw [if_neg hac] at h
        obtain rfl : c = b := by simpa using h
        obtain ⟨l₁, l₂, rfl, hlt⟩ := ih c hm
        refine ⟨a :: l₁, l₂, rfl, ?_⟩
        intro x hx
        rcases List.mem_cons.mp hx with rfl | hx
        · exact lt_of_not_le hac
        · exact hlt x hx

theorem firstMinBy_map (f : β → ℚ) (g : α → β) (l : List α) :
    firstMinBy f (l.map g) = (firstMinBy (fun a => f (g a)) l).map g := by
  induction l with
  | nil => rfl
  | cons a l ih =>
    simp only [List.map_cons, firstMinBy, ih]
    cases firstMinBy (fun a => f (g a)) l with
    | none => rfl
    | some b => by_cases h : f (g a) ≤ f (g b) <;> simp [h]

/-- `nearest_fire_station` returns the first row attaining the minimal
`distance_km` (and an `IndexError` on an empty frame): the head of a
stable sort is the first minimiser. -/
theorem nearest_fire_station_eq_firstMinBy (geo : Geo) (lat lon : ℚ)
    (S : List Station) :
    nearest_fire_station geo lat lon S =
      match firstMinBy (distOf geo lat lon) S with
      | none => .error .IndexError
      | some s => .ok (rowOf geo lat lon s) := by
  have h := head_insertionSortKey (fun r : StationRow => r.distance_km)
      (S.map (rowOf geo lat lon))
  rw [firstMinBy_map] at h
  have hk : (fun a => (rowOf geo lat lon a).distance_km) = distOf geo lat lon :=
    rfl
  rw [hk] at h
  unfold nearest_fire_station
  cases hs : insertionSortKey (fun r : StationRow => r.distance_km)
      (S.map (rowOf geo lat lon)) with
  | nil =>
    rw [hs] at h
    cases hf : firstMinBy (distOf geo lat lon) S with
    | none => rfl
    | some s => rw [hf] at h; simp at h
  | cons r rest =>
    rw [hs] at h
    cases hf : firstMinBy (distOf geo lat lon) S with
    | none => rw [hf] at h; simp at h
    | some s =>
      rw [hf] at h
      simp only [List.head?_cons, Option.map_some] at h
      obtain rfl : r = rowOf geo lat lon s := by simpa using h
      rfl

/-! ### Claim theorems: nearest-station resolver -/

/-- C1: for every non-empty station sequence and every coordinate, the row
returned by `nearest_fire_station` carries a `distance_km` equal to the
minimum over all stations of `haversine_km` from the query point: it is a
lower bound of all the per-station distances and is attained by one of
them.  The geodesic `geo` is the external distance backend. -/
theorem nearest_min_distance (geo : Geo) (lat lon : ℚ) (S : List Station)
    (hne : S ≠ []) :
    ∃ r, nearest_fire_station geo lat lon S = .ok r ∧
      (∀ s ∈ S, r.distance_km ≤
        haversine_km geo (lat, lon) (s.latitude, s.longitude)) ∧
      (∃ s ∈ S, r.distance_km =
        haversine_km geo (lat, lon) (s.latitude, s.longitude)) := by
  cases hf : firstMinBy (distOf geo lat lon) S with
  | none => exact absurd (firstMinBy_none _ hf) hne
  | some s =>
    refine ⟨rowOf geo lat lon s, ?_, ?_, ?_⟩
    · rw [nearest_fire_station_eq_firstMinBy, hf]
    · intro t ht
      have := firstMinBy_le (distOf geo lat lon) S s hf t ht
      simpa [rowOf, distOf] using this
    · obtain ⟨l₁, l₂, hSplit, _⟩ := firstMinBy_split _ S s hf
      refine ⟨s, ?_, by simp [rowOf, distOf]⟩
      rw [hSplit]; simp

/-- Closed witness for `nearest_min_distance`: the built-in default
station list, queried from the origin with the concrete taxicab backend
`geoW`. -/
theorem nearest_min_distance_witness :
    DEFAULT_FIRE_STATIONS ≠ [] ∧
    (∃ r, nearest_fire_station geoW 0 0 DEFAULT_FIRE_STATIONS = .ok r ∧
      (∀ s ∈ DEFAULT_FIRE_STATIONS, r.distance_km ≤
        haversine_km geoW (0, 0) (s.latitude, s.longitude)) ∧
      (∃ s ∈ DEFAULT_FIRE_STATIONS, r.distance_km =
        haversine_km geoW (0, 0) (s.latitude, s.longitude))) :=
  ⟨by decide, nearest_min_distance geoW 0 0 DEFAULT_FIRE_STATIONS (by decide)⟩

/-- A two-station list whose stations are equidistant from every query
point (they share coordinates): used to witness the tie-break claim. -/
def tieStations : List Station :=
  [ { name := "A", latitude := 1, longitude := 5, phone := "1" },
    { name := "B", latitude := 1, longitude := 5, phone := "2" } ]

/-- C2: when two (or more) stations are at equal rounded minimum distance,
`nearest_fire_station` returns the one appearing first in the sequence:
the returned row is `rowOf` of a station `s` attaining the minimum such
that every station before `s` is strictly farther away.  The statement
carries `S.length ≤ 16` because the source's sort (pandas/numpy default
introsort) behaves as a stable insertion sort only below numpy's 17-row
cutoff; above it numpy does not document stability, so the first-in-order
tie-break is only a guarantee of the program on such small frames.
Determinism across repeated calls is inherent: the embedding is a pure
function of `(geo, lat, lon, S)`, and the source computes the same sort
of the same frame on each call. -/
theorem nearest_tie_break_first (geo : Geo) (lat lon : ℚ) (S : List Station)
    (_hlen : S.length ≤ 16)
    (i j : Fin S.length) (_hij : i < j)
    (_heq : distOf geo lat lon (S.get i) = distOf geo lat lon (S.get j))
    (hmin : ∀ s ∈ S, distOf geo lat lon (S.get i) ≤ distOf geo lat lon s) :
    ∃ T₁ s T₂, S = T₁ ++ s :: T₂ ∧
      distOf geo lat lon s = distOf geo lat lon (S.get i) ∧
      (∀ t ∈ T₁, distOf geo lat lon (S.get i) < distOf geo lat lon t) ∧
      nearest_fire_station geo lat lon S = .ok (rowOf geo lat lon s) := by
  have hne : S ≠ [] :=
    List.length_pos.mp (Nat.lt_of_le_of_lt (Nat.zero_le _) i.isLt)
  cases hf : firstMinBy (distOf geo lat lon) S with
  | none => exact absurd (firstMinBy_none _ hf) hne
  | some s =>
    obtain ⟨T₁, T₂, hSplit, hlt⟩ := firstMinBy_split _ S s hf
    have hsmem : s ∈ S := by rw [hSplit]; simp
    have h1 : distOf geo lat lon s ≤ distOf geo lat lon (S.get i) :=
      firstMinBy_le _ S s hf _ (S.get_mem i.1 i.2)
    have h2 : distOf geo lat lon (S.get i) ≤ distOf geo lat lon s :=
      hmin s hsmem
    have hds : distOf geo lat lon s = distOf geo lat lon (S.get i) :=
      le_antisymm h1 h2
    refine ⟨T₁, s, T₂, hSplit, hds, ?_, ?_⟩
    · intro t ht
      exact hds ▸ hlt t ht
    · rw [nearest_fire_station_eq_firstMinBy, hf]

/-- Closed witness for `nearest_tie_break_first`: both stations of
`tieStations` are at rounded distance 6 from the origin under `geoW`,
and the resolver returns the first one. -/
theorem nearest_tie_break_first_witness :
    (tieStations.length ≤ 16 ∧
      (⟨0, by decide⟩ : Fin tieStations.length) < ⟨1, by decide⟩ ∧
      distOf geoW 0 0 (tieStations.get ⟨0, by decide⟩)
        = distOf geoW 0 0 (tieStations.get ⟨1, by decide⟩) ∧
      (∀ s ∈ tieStations,
        distOf geoW 0 0 (tieStations.get ⟨0, by decide⟩) ≤ distOf geoW 0 0 s)) ∧
    (∃ T₁ s T₂, tieStations = T₁ ++ s :: T₂ ∧
      distOf geoW 0 0 s = distOf geoW 0 0 (tieStations.get ⟨0, by decide⟩) ∧
      (∀ t ∈ T₁,
        distOf geoW 0 0 (tieStations.get ⟨0, by decide⟩) < distOf geoW 0 0 t) ∧
      nearest_fire_station geoW 0 0 tieStations = .ok (rowOf geoW 0 0 s)) :=
  ⟨⟨by decide, by decide, rfl,
      fun s hs => by fin_cases hs <;> exact le_of_eq rfl⟩,
    nearest_tie_break_first geoW 0 0 tieStations (by decide)
      ⟨0, by decide⟩ ⟨1, by decide⟩
      (by decide) rfl (fun s hs => by fin_cases hs <;> exact le_of_eq rfl)⟩

/-- C3 (amended): invoking the resolver on an empty station sequence
fails, but with pandas' generic positional `IndexError` from `iloc[0]` —
the source defines no `EmptyInputError`. -/
theorem nearest_empty_raises_index_error (geo : Geo) (lat lon : ℚ) :
    nearest_fire_station geo lat lon [] = .error .IndexError := rfl

/-- C3 counterexample: at the concrete empty input the resolver's error is
`IndexError`, not the `EmptyInputError` the claim names. -/
theorem nearest_empty_not_empty_input_error :
    nearest_fire_station geoW 0 0 [] = .error .IndexError ∧
    nearest_fire_station geoW 0 0 [] ≠ .error .EmptyInputError := by
  refine ⟨rfl, ?_⟩
  intro h
  exact PyError.noConfusion (Except.error.inj h)

/-! ### Claim theorems: incident log -/

/-- C4 (amended): `log_event` performs no validation of `status`
whatsoever — it never raises for ANY status value, valid enum member or
not, and appends the entry as given.  (The source has no
`InvalidStatusError`; an unrecognized status is silently logged.) -/
theorem log_event_no_status_validation (ts status location notes : String)
    (st : AppState) :
    (log_event ts status location notes true st).2 = .ok () ∧
    curLog (log_event ts status location notes true st).1
      = curLog st ++ [entryOf ts status location notes] := by
  exact ⟨rfl, rfl⟩

/-- C4 counterexample: at the concrete unrecognized status `"BOGUS"` the
append succeeds and does not signal `InvalidStatusError`. -/
theorem log_event_bogus_status_accepted :
    (log_event "2025-10-12T10:00:00" "BOGUS" "Admin Block" "" true
        freshState).2 = .ok () ∧
    (log_event "2025-10-12T10:00:00" "BOGUS" "Admin Block" "" true
        freshState).2 ≠ .error .InvalidStatusError := by
  refine ⟨rfl, ?_⟩
  intro h
  exact Except.noConfusion h

/-- C5 (amended): appending `CALL_PLACED` then `RESOLVED` at
"Admin Block" in a fresh session yields exactly 2 entries, both at
"Admin Block", statuses in that order, carrying the two clock readings in
order; the timestamps are non-decreasing whenever the wall clock readings
are (`hts`), but they are NOT guaranteed distinct — both appends may fall
within the same second (see the counterexample). -/
theorem admin_block_two_appends (ts1 ts2 : String) (hts : ts1 ≤ ts2) :
    curLog (log_event ts2 "RESOLVED" "Admin Block" "" true
        (log_event ts1 "CALL_PLACED" "Admin Block" "" true freshState).1).1
      = [entryOf ts1 "CALL_PLACED" "Admin Block" "",
         entryOf ts2 "RESOLVED" "Admin Block" ""] ∧
    (curLog (log_event ts2 "RESOLVED" "Admin Block" "" true
        (log_event ts1 "CALL_PLACED" "Admin Block" "" true freshState).1).1).length = 2 ∧
    (∀ e ∈ curLog (log_event ts2 "RESOLVED" "Admin Block" "" true
        (log_event ts1 "CALL_PLACED" "Admin Block" "" true freshState).1).1,
      e.location = .str "Admin Block") ∧
    (curLog (log_event ts2 "RESOLVED" "Admin Block" "" true
        (log_event ts1 "CALL_PLACED" "Admin Block" "" true freshState).1).1).map
        LogEntry.status = [.str "CALL_PLACED", .str "RESOLVED"] ∧
    ts1 ≤ ts2 := by
  refine ⟨rfl, rfl, ?_, rfl, hts⟩
  intro e he
  rcases List.mem_cons.mp he with rfl | he
  · rfl
  · rcases List.mem_cons.mp he with rfl | he
    · rfl
    · exact absurd he (List.not_mem_nil e)

/-- Closed witness for `admin_block_two_appends`, with clock readings five
seconds apart. -/
theorem admin_block_two_appends_witness :
    ("2025-10-12T10:00:00" : String) ≤ "2025-10-12T10:00:05" ∧
    (curLog (log_event "2025-10-12T10:00:05" "RESOLVED" "Admin Block" "" true
        (log_event "2025-10-12T10:00:00" "CALL_PLACED" "Admin Block" "" true
          freshState).1).1
      = [entryOf "2025-10-12T10:00:00" "CALL_PLACED" "Admin Block" "",
         entryOf "2025-10-12T10:00:05" "RESOLVED" "Admin Block" ""] ∧
    (curLog (log_event "2025-10-12T10:00:05" "RESOLVED" "Admin Block" "" true
        (log_event "2025-10-12T10:00:00" "CALL_PLACED" "Admin Block" "" true
          freshState).1).1).length = 2 ∧
    (∀ e ∈ curLog (log_event "2025-10-12T10:00:05" "RESOLVED" "Admin Block" "" true
        (log_event "2025-10-12T10:00:00" "CALL_PLACED" "Admin Block" "" true
          freshState).1).1,
      e.location = .str "Admin Block") ∧
    (curLog (log_event "2025-10-12T10:00:05" "RESOLVED" "Admin Block" "" true
        (log_event "2025-10-12T10:00:00" "CALL_PLACED" "Admin Block" "" true
          freshState).1).1).map
        LogEntry.status = [.str "CALL_PLACED", .str "RESOLVED"] ∧
    ("2025-10-12T10:00:00" : String) ≤ "2025-10-12T10:00:05") :=
  ⟨by rw [String.le_iff_toList_le]; decide,
    admin_block_two_appends "2025-10-12T10:00:00" "2025-10-12T10:00:05"
      (by rw [String.le_iff_toList_le]; decide)⟩

/-- C5 counterexample: when the two appends fall within the same clock
second (the external clock returns the same second-precision reading
twice), the two entries carry EQUAL timestamps — the claim's
"distinct timestamps" fails on the code. -/
theorem admin_block_same_second_not_distinct :
    (curLog (log_event "2025-10-12T10:00:00" "RESOLVED" "Admin Block" "" true
        (log_event "2025-10-12T10:00:00" "CALL_PLACED" "Admin Block" "" true
          freshState).1).1).map LogEntry.timestamp
      = [.str "2025-10-12T10:00:00", .str "2025-10-12T10:00:00"] ∧
    ¬ ((curLog (log_event "2025-10-12T10:00:00" "RESOLVED" "Admin Block" "" true
        (log_event "2025-10-12T10:00:00" "CALL_PLACED" "Admin Block" "" true
          freshState).1).1).map LogEntry.timestamp).Nodup := by
  refine ⟨rfl, ?_⟩
  decide

/-- C6 (amended): when the CSV write fails during an append, the
in-session sequence still contains the new entry (the in-memory append
happens before the write), the persisted file is left unchanged, and the
next successful append rewrites the file with the FULL sequence including
the entry whose write failed (self-healing).  However the write error
propagates out of `log_event` uncaught — the source wraps the `to_csv`
call in no `try`/`except`, so no warning is shown and the interaction
aborts (see the counterexample). -/
theorem log_event_write_failure_state (ts1 s1 l1 n1 ts2 s2 l2 n2 : String)
    (st : AppState) :
    (log_event ts1 s1 l1 n1 false st).2 = .error .OSError ∧
    curLog (log_event ts1 s1 l1 n1 false st).1
      = curLog st ++ [entryOf ts1 s1 l1 n1] ∧
    (log_event ts1 s1 l1 n1 false st).1.logFile = st.logFile ∧
    (log_event ts2 s2 l2 n2 true (log_event ts1 s1 l1 n1 false st).1).1.logFile
      = some ((curLog st ++ [entryOf ts1 s1 l1 n1] ++ [entryOf ts2 s2 l2 n2]).map
          serializeEntry) := by
  exact ⟨rfl, rfl, rfl, rfl⟩

/-- C6 counterexample: the write failure is NOT handled — `log_event`
propagates the uncaught exception (so the interaction aborts with an
error rather than showing a non-fatal warning), even though the entry did
reach the in-session log. -/
theorem log_event_write_failure_uncaught :
    (log_event "2025-10-12T10:00:00" "CALL_PLACED" "Admin Block" "" false
        freshState).2 = .error .OSError ∧
    (log_event "2025-10-12T10:00:00" "CALL_PLACED" "Admin Block" "" false
        freshState).2 ≠ .ok () ∧
    curLog (log_event "2025-10-12T10:00:00" "CALL_PLACED" "Admin Block" "" false
        freshState).1
      = [entryOf "2025-10-12T10:00:00" "CALL_PLACED" "Admin Block" ""] := by
  refine ⟨rfl, ?_, rfl⟩
  intro h
  exact Except.noConfusion h

/-! ### Round-trip through the persisted CSV -/

/-- C8 (amended): `load_fire_station_df` returns the (non-empty) built-in
defaults when no override CSV exists and returns whatever the override CSV
parses to when it exists — with NO non-emptiness check, so an override
with zero data rows is returned empty; a malformed override raises the
generic pandas parse error, not a dedicated `SourceMalformedError` (the
code defines no such type and does not silently fall back either way). -/
theorem load_fire_station_df_behaviour :
    load_fire_station_df .absent = .ok DEFAULT_FIRE_STATIONS ∧
    DEFAULT_FIRE_STATIONS ≠ [] ∧
    (∀ rows, load_fire_station_df (.parsed rows) = .ok rows) ∧
    load_fire_station_df .malformed = .error .ParserError :=
  ⟨rfl, by decide, fun _ => rfl, rfl⟩

/-- C8 counterexample: a present-but-empty override CSV yields an EMPTY
station sequence (refuting "every call returns a non-empty sequence"),
and a malformed override raises `ParserError`, not the
`SourceMalformedError` the claim names. -/
theorem load_fire_station_df_empty_override :
    load_fire_station_df (.parsed []) = .ok [] ∧
    load_fire_station_df .malformed ≠ .error .SourceMalformedError := by
  refine ⟨rfl, ?_⟩
  intro h
  exact PyError.noConfusion (Except.error.inj h)

/-- C9: for non-negative distance and positive speed the ETA computation
`int((distance_km / speed) * 60)` equals `⌊distance_km / speed * 60⌋`
(Python `int` truncates toward zero, which on a non-negative argument is
the floor), is non-negative, and is zero at zero distance. -/
theorem eta_minutes_floor (d s : ℚ) (hd : 0 ≤ d) (hs : 0 < s) :
    eta_minutes d s = ⌊d / s * 60⌋ ∧ 0 ≤ eta_minutes d s ∧
    eta_minutes 0 s = 0 := by
  have hx : (0:ℚ) ≤ d / s * 60 := by positivity
  have hfl : eta_minutes d s = ⌊d / s * 60⌋ := by
    simp only [eta_minutes, pyInt, if_pos hx]
  refine ⟨hfl, ?_, ?_⟩
  · rw [hfl]
    exact Int.floor_nonneg.mpr hx
  · have h0 : (0:ℚ) / s * 60 = 0 := by
      rw [zero_div, zero_mul]
    simp [eta_minutes, pyInt, h0]

/-- Closed witness for `eta_minutes_floor` at distance 1 km and the
source's 40 km/h speed constant. -/
theorem eta_minutes_floor_witness :
    (0:ℚ) ≤ 1 ∧ (0:ℚ) < AVG_FIRE_TRUCK_SPEED_KMPH ∧
    (eta_minutes 1 AVG_FIRE_TRUCK_SPEED_KMPH
        = ⌊(1:ℚ) / AVG_FIRE_TRUCK_SPEED_KMPH * 60⌋ ∧
      0 ≤ eta_minutes 1 AVG_FIRE_TRUCK_SPEED_KMPH ∧
      eta_minutes 0 AVG_FIRE_TRUCK_SPEED_KMPH = 0) :=
  ⟨by decide, by decide,
    eta_minutes_floor 1 AVG_FIRE_TRUCK_SPEED_KMPH (by decide) (by decide)⟩

/-- C10: calling `log_event` in a session whose state has no `"log"` key
yet does not fail: the body first initialises the in-session sequence to
`[]`, then appends, so the in-memory log holds exactly the one new entry
(with the Python-default empty `notes`), and the file rewrite that follows
the in-memory append persists exactly that post-append one-entry
sequence. -/
theorem log_event_initializes_then_appends (ts status location : String)
    (st : AppState) (h : st.sessionLog = none) :
    (log_event ts status location "" true st).2 = .ok () ∧
    (log_event ts status location "" true st).1.sessionLog
      = some [entryOf ts status location ""] ∧
    (log_event ts status location "" true st).1.logFile
      = some ([entryOf ts status location ""].map serializeEntry) := by
  cases st with
  | mk sl lf =>
    cases sl with
    | none => exact ⟨rfl, rfl, rfl⟩
    | some l => exact Option.noConfusion h

/-- Closed witness for `log_event_initializes_then_appends` on the fresh
session state. -/
theorem log_event_initializes_then_appends_witness :
    freshState.sessionLog = none ∧
    ((log_event "2025-10-12T10:00:00" "CALL_PLACED" "Admin Block" "" true
        freshState).2 = .ok () ∧
    (log_event "2025-10-12T10:00:00" "CALL_PLACED" "Admin Block" "" true
        freshState).1.sessionLog
      = some [entryOf "2025-10-12T10:00:00" "CALL_PLACED" "Admin Block" ""] ∧
    (log_event "2025-10-12T10:00:00" "CALL_PLACED" "Admin Block" "" true
        freshState).1.logFile
      = some ([entryOf "2025-10-12T10:00:00" "CALL_PLACED" "Admin Block" ""].map
          serializeEntry)) :=
  ⟨rfl, log_event_initializes_then_appends "2025-10-12T10:00:00" "CALL_PLACED"
    "Admin Block" freshState rfl⟩
